import Mathlib

/-!
Shallow embedding of `urql-rest-exchange` (src/restExchange.ts) and proofs
about the claims of its specification.

JavaScript values flowing through the exchange are modelled by `Json`;
`undefined` is modelled by `Option` at every place the source can observe
the difference.  GraphQL documents are modelled by the fragment of the
graphql-js AST that the source inspects: definitions, selection sets,
selections (fields, fragment spreads, inline fragments), directives and
their arguments.  Directive argument values keep the one distinction the
source tests (`value.kind === 'StringValue'`): a string literal versus
anything else (whose `.value` is `undefined`).
-/

namespace RestExchange

/-- A JSON/JavaScript value. -/
inductive Json where
  | null
  | bool (b : Bool)
  | num (n : Int)
  | str (s : String)
  | arr (elems : List Json)
  | obj (entries : List (String × Json))

/-- JavaScript truthiness of a value (`!x` in the source): `null`, `false`,
`0` and the empty string are falsy; objects and arrays are always truthy. -/
def jsTruthy : Json → Bool
  | .null => false
  | .bool b => b
  | .num n => n != 0
  | .str s => s ≠ ""
  | .arr _ => true
  | .obj _ => true

/-- Truthiness of a possibly-`undefined` value: `undefined` is falsy. -/
def jsTruthyOpt : Option Json → Bool
  | none => false
  | some v => jsTruthy v

/-- A directive argument value: a string literal, or any other value node
(variable reference etc.), whose `.value` property is `undefined`. -/
inductive GqlValue where
  | strVal (s : String)
  | otherVal
deriving DecidableEq, Repr

/-- The `.value` property read by the source (`arg.value.value`). -/
def GqlValue.valueField : GqlValue → Option String
  | .strVal s => some s
  | .otherVal => none

/-- A directive argument `name: value`. -/
structure Argument where
  name : String
  value : GqlValue
deriving DecidableEq, Repr

/-- A directive `@name(args)`; graphql-js `parse` always materializes the
`arguments` array (empty when no parentheses are present). -/
structure Directive where
  name : String
  args : List Argument
deriving DecidableEq, Repr

mutual
/-- A selection inside a selection set. -/
inductive Selection where
  | field (name : String) (directives : List Directive)
      (selectionSet : Option SelectionSet)
  | fragmentSpread (name : String) (directives : List Directive)
  | inlineFragment (directives : List Directive) (selectionSet : SelectionSet)

/-- A braces-delimited selection set. -/
inductive SelectionSet where
  | mk (selections : List Selection)
end

/-- A top-level definition of a document. -/
inductive Definition where
  | operation (opType : String) (selectionSet : SelectionSet)
  | fragment (name : String) (selectionSet : SelectionSet)

/-- A parsed GraphQL document. -/
structure DocumentNode where
  definitions : List Definition

/-- The selections of a selection set. -/
def SelectionSet.selections : SelectionSet → List Selection
  | .mk sels => sels

/-- The `directives` array of a selection node (`sel.directives`). -/
def Selection.directives : Selection → List Directive
  | .field _ ds _ => ds
  | .fragmentSpread _ ds => ds
  | .inlineFragment ds _ => ds

/-- `hasRestDirective` from the source: scans each operation definition's
top-level selections for a directive named `rest`. -/
def hasRestDirective (query : DocumentNode) : Bool :=
  query.definitions.any fun d =>
    match d with
    | .operation _ ss =>
        ss.selections.any fun sel =>
          sel.directives.any fun dir => dir.name == "rest"
    | .fragment _ _ => false

/-- The argument map built by `getRestDirective`'s `reduce`
(`acc[arg.name.value] = arg.value.value`): an association list in argument
order; object-assignment overwrite means a later duplicate key wins, so
lookups read the last matching entry. -/
def RestArgs := List (String × Option String)

/-- Build the argument map of a directive. -/
def directiveArgsMap (d : Directive) : RestArgs :=
  d.args.map fun a => (a.name, a.value.valueField)

/-- Property read on the argument map (destructuring in the orchestrator):
`undefined` both when the key is absent and when its value is `undefined`. -/
def restArgLookup (args : RestArgs) (key : String) : Option String :=
  match List.lookup key (List.reverse args) with
  | some v => v
  | none => none

/-- First `rest` directive among a list of selections (the inner loop of
`getRestDirective`). -/
def firstRestInSelections : List Selection → Option Directive
  | [] => none
  | sel :: rest =>
      match sel.directives.find? (fun dir => dir.name == "rest") with
      | some d => some d
      | none => firstRestInSelections rest

/-- `getRestDirective` from the source: walks operation definitions
top-to-bottom, each one's top-level selections top-to-bottom, and returns
the argument map of the first `rest` directive found; `null` if none. -/
def getRestDirective (query : DocumentNode) : Option RestArgs :=
  go query.definitions
where
  go : List Definition → Option RestArgs
    | [] => none
    | .operation _ ss :: rest =>
        match firstRestInSelections ss.selections with
        | some d => some (directiveArgsMap d)
        | none => go rest
    | .fragment _ _ :: rest => go rest

/-! ### Thrown values and the error envelope -/

/-- A JavaScript throwable: either an `Error` instance (with `name`,
`message` and an optional `stack`), or any other thrown value, whose
content the catch block never inspects. -/
inductive Throwable where
  | error (name message : String) (stack : Option String)
  | nonError
deriving DecidableEq

/-- A `new Error(msg)` as thrown throughout the source. -/
def jsError (message : String) : Throwable :=
  .error "Error" message none

/-- The error object placed in the failure result. -/
structure ErrorEnvelope where
  message : String
  name : String
  stack : Option String
deriving DecidableEq

/-- The value `executeRestRequest` resolves with: `{data}` on success,
`{data: null, error}` on failure. -/
inductive RestResult where
  | success (data : Json)
  | failure (error : ErrorEnvelope)

/-! ### Path builder -/

/-- Replace every occurrence of `pat`, leftmost-first and
non-overlapping, continuing after each replacement — the semantics of a
JavaScript global-regex `replace` whose pattern is a literal string.  The
`fuel` argument makes the recursion structural; every step consumes at
least one input character, so fuel equal to the input length computes the
full replacement. -/
def replaceAllList (pat rep : List Char) : Nat → List Char → List Char
  | _, [] => []
  | 0, l => l
  | Nat.succ fuel, c :: rest =>
      if pat.isPrefixOf (c :: rest) then
        match pat with
        | [] => c :: replaceAllList pat rep fuel rest
        | _ :: ps => rep ++ replaceAllList pat rep fuel (rest.drop ps.length)
      else c :: replaceAllList pat rep fuel rest

/-- String form of `replaceAllList`. -/
def strReplaceAll (s pat rep : String) : String :=
  String.mk (replaceAllList pat.data rep.data s.data.length s.data)

/-- `replaceParam` from the source: replaces all occurrences of `:name`
in `endpoint` by `value`; no-op when `name` or `value` is `undefined`. -/
def replaceParam (endpoint : String) (name : Option String)
    (value : Option String) : String :=
  match name, value with
  | some n, some v => strReplaceAll endpoint (":" ++ n) v
  | _, _ => endpoint

/-- String coercion JavaScript applies to a variable value interpolated
into the path (`String(value)` semantics of `replace`), for the primitive
values the exchange is used with. -/
def jsCoerceString : Json → String
  | .null => "null"
  | .bool b => if b then "true" else "false"
  | .num n => toString n
  | .str s => s
  | .arr _ => ""
  | .obj _ => "[object Object]"

/-- The substitution fold inside `pathBuilder`: one `replaceParam` per key
of the variables mapping, in iteration (insertion) order. -/
def pathSubst (path : String) (vars : List (String × Json)) : String :=
  vars.foldl
    (fun acc kv => replaceParam acc (some kv.1) (some (jsCoerceString kv.2)))
    path

/-- Does the string contain a given character (`String.includes`)? -/
def strContainsChar (s : String) (c : Char) : Bool :=
  s.data.contains c

/-- Error message thrown by `pathBuilder`. -/
def missingParamsMsg : String :=
  "Missing params to run query, specify it in the query params"

/-- `pathBuilder` from the source: substitute every variable, then fail if
any `:` remains in the result. -/
def pathBuilder (path : String) (vars : List (String × Json)) :
    Except Throwable String :=
  let pathWithParams := pathSubst path vars
  if strContainsChar pathWithParams ':' then
    .error (jsError missingParamsMsg)
  else
    .ok pathWithParams

/-! ### Method validator -/

/-- `String.toUpperCase`, character by character (the core
`String.toUpper` is not kernel-reducible). -/
def strToUpper (s : String) : String :=
  String.mk (s.data.map Char.toUpper)

/-- `String.toLowerCase`, character by character. -/
def strToLower (s : String) : String :=
  String.mk (s.data.map Char.toLower)

/-- `validateRequestMethodForOperationType` from the source. A successful
call returns `none` for the `query`/`mutation` arms (JavaScript
`return;`), and `some operationType` for the default arm. -/
def validateRequestMethodForOperationType (method : String)
    (operationType : String) : Except Throwable (Option String) :=
  if operationType = "query" then
    if (strToUpper method) ≠ "GET" then
      .error (jsError ("A \"query\" operation can only support \"GET\" " ++
        "requests but got \"" ++ method ++ "\"."))
    else
      .ok none
  else if operationType = "mutation" then
    if ["POST", "PUT", "PATCH", "DELETE"].contains (strToUpper method) then
      .ok none
    else
      .error (jsError "\"mutation\" operations do not support that HTTP-verb")
  else if operationType = "subscription" then
    .error (jsError "A \"subscription\" operation is not supported yet.")
  else
    .ok (some operationType)

/-! ### Endpoint resolver -/

/-- Association-list update with JavaScript object-assignment semantics:
an existing key keeps its position and gets the new value, a new key is
appended at the end. -/
def assocInsert {α : Type} : List (String × α) → String → α → List (String × α)
  | [], k, v => [(k, v)]
  | (k0, v0) :: rest, k, v =>
      if k0 = k then (k0, v) :: rest else (k0, v0) :: assocInsert rest k v

/-- `getURIFromEndpoints` from the source:
`endpoints[endpoint || ''] || endpoints['']`.  `none` models a JavaScript
`undefined` result; an empty-string URI is falsy and falls through to the
default entry. -/
def getURIFromEndpoints (endpoints : List (String × String))
    (endpoint : Option String) : Option String :=
  let key := match endpoint with
    | some s => if s = "" then "" else s
    | none => ""
  match List.lookup key endpoints with
  | some v => if v ≠ "" then some v else List.lookup "" endpoints
  | none => List.lookup "" endpoints

/-! ### Field maps and the response shaper -/

/-- The recursive `FieldMap` of the source: field name to nested map. -/
inductive FieldMap where
  | mk (entries : List (String × FieldMap))

/-- Entries of a field map. -/
def FieldMap.entries : FieldMap → List (String × FieldMap)
  | .mk es => es

/-- `Object.assign(target, source)` on field-map entry lists. -/
def fmAssign (target : List (String × FieldMap)) (source : FieldMap) :
    List (String × FieldMap) :=
  source.entries.foldl (fun acc kv => assocInsert acc kv.1 kv.2) target

/-- `query.definitions.find(d => d.kind === 'FragmentDefinition' &&
d.name.value === name)`. -/
def findFragment (query : DocumentNode) (name : String) : Option SelectionSet :=
  go query.definitions
where
  go : List Definition → Option SelectionSet
    | [] => none
    | .fragment n ss :: rest => if n = name then some ss else go rest
    | .operation _ _ :: rest => go rest

/-- `collectFields` from `getRequestedFields`.  The `fuel` argument makes
the source's unbounded recursion through fragment spreads total: on any
document whose fragment references are acyclic, every fuel at least the
recursion depth yields the source's result (the source diverges on cyclic
fragment references, which graphql validation rules out). -/
def collectFields (query : DocumentNode) :
    Nat → Option SelectionSet → FieldMap
  | _, none => .mk []
  | 0, some _ => .mk []
  | Nat.succ fuel, some ss =>
      .mk (ss.selections.foldl
        (fun acc sel =>
          match sel with
          | .field name _ sub =>
              assocInsert acc name (collectFields query fuel sub)
          | .fragmentSpread name _ =>
              match findFragment query name with
              | some fss => fmAssign acc (collectFields query fuel (some fss))
              | none => acc
          | .inlineFragment _ sub =>
              fmAssign acc (collectFields query fuel (some sub)))
        [])

/-- `getRequestedFields` from the source: merge the collected fields of
every operation definition. -/
def getRequestedFields (fuel : Nat) (query : DocumentNode) : FieldMap :=
  .mk (query.definitions.foldl
    (fun acc d =>
      match d with
      | .operation _ ss => fmAssign acc (collectFields query fuel (some ss))
      | .fragment _ _ => acc)
    [])

/-- The inner `filterData` of `omitExtraFields`: objects keep exactly the
keys present in the field map (every field-map value is an object, hence
truthy), recursing with the nested map; arrays map elementwise; any other
value is returned unchanged.  The `fuel` makes the recursion structural;
any fuel at least the nesting depth of the data computes the source's
result. -/
def filterData : Nat → Json → FieldMap → Json
  | 0, d, _ => d
  | Nat.succ fuel, .arr xs, fields =>
      .arr (xs.map fun x => filterData fuel x fields)
  | Nat.succ fuel, .obj kvs, fields =>
      .obj (kvs.filterMap fun kv =>
        match List.lookup kv.1 fields.entries with
        | some sub => some (kv.1, filterData fuel kv.2 sub)
        | none => none)
  | Nat.succ _, d, _ => d

/-- `omitExtraFields` from the source. -/
def omitExtraFields (fuel : Nat) (data : Json) (query : DocumentNode) : Json :=
  filterData fuel data (getRequestedFields fuel query)

/-- The directive loop inside `getTypeDirectiveForField`: first `type`
directive whose `name` argument is a string literal; a `type` directive
with a missing or non-literal `name` argument is skipped. -/
def typeNameArgOfDirectives : List Directive → Option String
  | [] => none
  | d :: rest =>
      if d.name = "type" then
        match d.args.find? (fun a => a.name == "name") with
        | some a =>
            match a.value with
            | .strVal s => some s
            | .otherVal => typeNameArgOfDirectives rest
        | none => typeNameArgOfDirectives rest
      else typeNameArgOfDirectives rest

/-- `r || fallback` on possibly-`undefined` strings: the source propagates
a nested result only when it is truthy (`if (nestedResult) return ...`),
so an empty string falls through like `null`. -/
def jsOrStr (r : Option String) (fallback : Option String) : Option String :=
  match r with
  | some t => if t = "" then fallback else some t
  | none => fallback

/-- The selection walk of `getTypeDirectiveForField`, fuelled because the
source recurses unboundedly through fragment spreads (see
`collectFields`). -/
def getTypeSels (query : DocumentNode) :
    Nat → List Selection → String → Option String
  | _, [], _ => none
  | 0, _ :: _, _ => none
  | Nat.succ fuel, sel :: rest, fieldName =>
      match sel with
      | .field name dirs sub =>
          match (if name = fieldName then typeNameArgOfDirectives dirs
                 else none) with
          | some t => some t
          | none =>
              match sub with
              | some ss =>
                  jsOrStr (getTypeSels query fuel ss.selections fieldName)
                    (getTypeSels query fuel rest fieldName)
              | none => getTypeSels query fuel rest fieldName
      | .fragmentSpread name _ =>
          match findFragment query name with
          | some ss =>
              jsOrStr (getTypeSels query fuel ss.selections fieldName)
                (getTypeSels query fuel rest fieldName)
          | none => getTypeSels query fuel rest fieldName
      | .inlineFragment _ ss =>
          jsOrStr (getTypeSels query fuel ss.selections fieldName)
            (getTypeSels query fuel rest fieldName)

/-- `getTypeDirectiveForField` from the source. -/
def getTypeDirectiveForField (query : DocumentNode) (fuel : Nat)
    (ss : SelectionSet) (fieldName : String) : Option String :=
  getTypeSels query fuel ss.selections fieldName

/-- `getTypeFromQuery` from the source: run the search from every
operation definition's top-level selection set, first truthy result
wins. -/
def getTypeFromQuery (fuel : Nat) (query : DocumentNode)
    (fieldName : String) : Option String :=
  go query.definitions
where
  go : List Definition → Option String
    | [] => none
    | .operation _ ss :: rest =>
        jsOrStr (getTypeDirectiveForField query fuel ss fieldName) (go rest)
    | .fragment _ _ :: rest => go rest

/-- `addTypename` from the source, as a pure transform (the source
mutates `data` in place).  The source stamps `__typename` before walking
the entries; stamping after the walk, as here, yields the same object
because the stamped value is a scalar string, which the walk maps to
itself, and the overwrite keeps the entry position.  The `fuel` makes the
recursion structural; any fuel at least the recursion depth computes the
source's result. -/
def addTypename (query : DocumentNode) : Nat → Option String → Json → Json
  | 0, _, d => d
  | Nat.succ fuel, ty, .arr xs =>
      .arr (xs.map fun x => addTypename query fuel ty x)
  | Nat.succ fuel, ty, .obj kvs =>
      let walked := kvs.map fun kv =>
        (kv.1, addTypename query fuel (getTypeFromQuery fuel query kv.1) kv.2)
      match ty with
      | some t =>
          if t ≠ "" then .obj (assocInsert walked "__typename" (.str t))
          else .obj walked
      | none => .obj walked
  | Nat.succ _, _, d => d

/-- Model of the `JSON.stringify` builtin used by the default body
serializer; string escaping is omitted because no part of this
development ever inspects the encoded text. -/
def jsonStringify : Json → String
  | .null => "null"
  | .bool b => if b then "true" else "false"
  | .num n => toString n
  | .str s => "\"" ++ s ++ "\""
  | .arr xs =>
      "[" ++ String.intercalate ","
        (xs.attach.map fun x => jsonStringify x.1) ++ "]"
  | .obj kvs =>
      "\x7b" ++ String.intercalate ","
        (kvs.attach.map fun ⟨⟨k, v⟩, hkv⟩ =>
          "\"" ++ k ++ "\":" ++ jsonStringify v) ++ "\x7d"
termination_by d => sizeOf d
decreasing_by
  · have := List.sizeOf_lt_of_mem x.2
    simp only [Json.arr.sizeOf_spec]
    omega
  · have := List.sizeOf_lt_of_mem hkv
    simp only [Json.obj.sizeOf_spec]
    simp only [Prod.mk.sizeOf_spec] at this
    omega

/-! ### Options, serializers, fetch, and the orchestrator -/

/-- A body serializer `(data, headers) -> {body, headers}`.  User-supplied
serializers are arbitrary JavaScript functions, so the model lets them
throw any `Throwable`. -/
def SerializerM :=
  Json → List (String × String) →
    Except Throwable (Json × List (String × String))

/-- `RestExchangeOptions`.  `endpoints` is `Option` because the source
guards against a `null` value even though the TypeScript type requires
it.  The source field `variables` is spelled `vars` here (`variables` is a
reserved word in Lean). -/
structure RestExchangeOptions where
  endpoints : Option (List (String × String))
  uri : Option String
  bodySerializers : Option (List (String × SerializerM))

/-- Case-insensitive `Headers.has`. -/
def headersHas (headers : List (String × String)) (key : String) : Bool :=
  headers.any fun kv => strToLower kv.1 == strToLower key

/-- `DEFAULT_JSON_SERIALIZER` from the source: JSON-encode the body and
add a `Content-Type` header only when none is present. -/
def DEFAULT_JSON_SERIALIZER : SerializerM := fun data headers =>
  .ok (.str (jsonStringify data),
    if headersHas headers "content-type" then headers
    else headers ++ [("Content-Type", "application/json")])

/-- The serializer registry of the orchestrator:
`{[DEFAULT_SERIALIZER_KEY]: DEFAULT_JSON_SERIALIZER, ...bodySerializers}`.
A custom entry under the empty-string key overwrites the default (spread
order). -/
def buildSerializers (options : RestExchangeOptions) :
    List (String × SerializerM) :=
  match options.bodySerializers with
  | some custom =>
      custom.foldl (fun acc kv => assocInsert acc kv.1 kv.2)
        [("", DEFAULT_JSON_SERIALIZER)]
  | none => [("", DEFAULT_JSON_SERIALIZER)]

/-- The slice of a urql `Operation` the orchestrator reads.  The source
field `variables` is spelled `vars` here (reserved word in Lean);
`fetchHeaders` models lines 143-147 — evaluating
`operation.context.fetchOptions` (a thunk or a static object, so it may
throw) and taking `fetchOptions.headers || {}`. -/
structure OperationM where
  kind : String
  query : DocumentNode
  vars : List (String × Json)
  fetchHeaders : Except Throwable (List (String × String))

/-- `variables?.[key]` on the operation's variables mapping. -/
def lookupVar (vars : List (String × Json)) (key : String) : Option Json :=
  List.lookup key vars

/-- `v || dflt` on a possibly-`undefined` string. -/
def jsOrDefault (v : Option String) (dflt : String) : String :=
  match v with
  | some s => if s = "" then dflt else s
  | none => dflt

/-- The response object an HTTP transport resolves with. -/
structure FetchResponse where
  ok : Bool
  status : Nat
  textBody : String
  jsonBody : Except Unit Json

/-- The `fetch` builtin: url, method, body, headers; network failures are
thrown values. -/
def FetchFn :=
  String → String → Option Json → List (String × String) →
    Except Throwable FetchResponse

/-- Lines 110-123 of the orchestrator: reject a configuration with
neither `uri` nor `endpoints`, reject a default-key entry that disagrees
with `uri`, and install `uri` into the default slot.  With `uri` set and
`endpoints` `null`, the assignment `endpoints[''] = uri` on `null` throws
a `TypeError`.  The `console.warn` of line 126 (no default endpoint) has
no observable effect and is not modelled. -/
def resolveEndpointsConfig (options : RestExchangeOptions) :
    Except Throwable (List (String × String)) :=
  match options.uri, options.endpoints with
  | none, none =>
      .error (jsError ("A RestLink must be initialized with either 1 uri, " ++
        "or a map of keyed-endpoints"))
  | none, some eps => .ok eps
  | some _, none => .error (.error "TypeError" "Cannot set properties of null" none)
  | some u, some eps =>
      match List.lookup "" eps with
      | some c =>
          if c ≠ u then
            .error (jsError ("RestLink was configured with a default uri " ++
              "that doesn't match what's passed in to the endpoints map."))
          else .ok (assocInsert eps "" u)
      | none => .ok (assocInsert eps "" u)

/-- The missing-input-body error message (lines 156-158). -/
def missingBodyMsg : String :=
  "[GraphQL mutation using a REST call without a body]. No `input` was " ++
    "detected. Pass bodyKey to the @rest() directive to resolve this."

/-- The unknown-serializer error message (lines 163-166). -/
def unknownSerializerMsg (sName : String) : String :=
  "\"bodySerializer\" must correspond to configured serializer. " ++
    "Please make sure to specify a serializer called " ++ sName ++
    " in the \"bodySerializers\" property."

/-- `new Headers(hs)`: header names are normalized to lowercase. -/
def newHeaders (hs : List (String × String)) : List (String × String) :=
  hs.map fun kv => (strToLower kv.1, kv.2)

/-- Lines 151-175 of the orchestrator: for a method other than `GET` and
`DELETE` (exact, case-sensitive comparison), look the body up under
`bodyKey || 'input'`; a falsy body (absent key included) is the
missing-input-body error; then serialize it with the named serializer
(which must exist in the registry) or the default one.  Returns the
serialized body and the override headers, or `(none, none)` for
`GET`/`DELETE`. -/
def buildBody (serializers : List (String × SerializerM)) (args : RestArgs)
    (method : String) (vars : List (String × Json))
    (headers : List (String × String)) :
    Except Throwable (Option Json × Option (List (String × String))) :=
  if ["GET", "DELETE"].contains method then
    .ok (none, none)
  else
    match lookupVar vars (jsOrDefault (restArgLookup args "bodyKey") "input") with
    | none => .error (jsError missingBodyMsg)
    | some body0 =>
        if jsTruthy body0 then
          let serRes :=
            match restArgLookup args "bodySerializer" with
            | some sName =>
                match List.lookup sName serializers with
                | some ser => ser body0 headers
                | none => .error (jsError (unknownSerializerMsg sName))
            | none =>
                match List.lookup "" serializers with
                | some ser => ser body0 headers
                | none =>
                    .error (.error "TypeError"
                      "serializers[''] is not a function" none)
          match serRes with
          | .ok sb => .ok (some sb.1, some (newHeaders sb.2))
          | .error e => .error e
        else .error (jsError missingBodyMsg)

/-- The `try` block of `executeRestRequest` (lines 107-202), as an
`Except` pipeline in the source's statement order. -/
def executeRestRequestE (fuel : Nat) (operation : OperationM)
    (options : RestExchangeOptions) (fetch : FetchFn) :
    Except Throwable Json := do
  let endpoints ← resolveEndpointsConfig options
  let serializers := buildSerializers options
  let restDirective ← match getRestDirective operation.query with
    | some args => Except.ok args
    | none => Except.error (jsError "No @rest directive found")
  let fetchURI ←
    match getURIFromEndpoints endpoints
        (restArgLookup restDirective "endpoint") with
    | some u =>
        if u = "" then Except.error (jsError "URL endpoint not defined")
        else Except.ok u
    | none => Except.error (jsError "URL endpoint not defined")
  let headers ← operation.fetchHeaders
  let path ← match restArgLookup restDirective "path" with
    | some p => Except.ok p
    | none =>
        Except.error (.error "TypeError"
          "Cannot read properties of undefined" none)
  let pathWithParams ← pathBuilder path operation.vars
  let method := jsOrDefault (restArgLookup restDirective "method") "GET"
  let bodyAndHeaders ←
    buildBody serializers restDirective method operation.vars headers
  let _ ← validateRequestMethodForOperationType method operation.kind
  let response ← fetch (fetchURI ++ pathWithParams) method bodyAndHeaders.1
    (match bodyAndHeaders.2 with
     | some oh => oh
     | none => headers)
  if !response.ok then
    Except.error (jsError ("Fetch error: " ++ toString response.status ++
      " " ++ response.textBody))
  else do
    let responseData ← match response.jsonBody with
      | .ok j => Except.ok j
      | .error _ => Except.error (jsError "Failed to parse JSON response.")
    let typed := addTypename operation.query fuel
      (restArgLookup restDirective "type") responseData
    let mainField := match (getRequestedFields fuel operation.query).entries.head? with
      | some kv => kv.1
      | none => "undefined"
    Except.ok (omitExtraFields fuel (.obj [(mainField, typed)])
      operation.query)

/-- The `catch` block (lines 203-221): an `Error` instance becomes
`{message, name, stack}`, anything else the generic envelope. -/
def catchToResult : Throwable → RestResult
  | .error n m s => .failure ⟨m, n, s⟩
  | .nonError => .failure ⟨"Unexpected error", "Unexpected", none⟩

/-- `executeRestRequest` from the source: the `try` pipeline with every
failure converted at the boundary. -/
def executeRestRequest (fuel : Nat) (operation : OperationM)
    (options : RestExchangeOptions) (fetch : FetchFn) : RestResult :=
  match executeRestRequestE fuel operation options fetch with
  | .ok data => .success data
  | .error e => catchToResult e

/-! ### Reference definitions written from the specification text
(for refinement comparisons only; everything above is translated from the
source). -/

/-- Deep selection scan, following the specification's words for
`hasRestDirective`: true iff any field selection, at any nesting depth
under any operation definition — including fields reached through
fragment spreads and inline fragments — carries a directive named
`rest`. -/
def deepRestInSelections (query : DocumentNode) : Nat → List Selection → Bool
  | _, [] => false
  | 0, _ :: _ => false
  | Nat.succ fuel, sel :: rest =>
      (match sel with
       | .field _ dirs sub =>
           dirs.any (fun d => d.name == "rest") ||
           (match sub with
            | some ss => deepRestInSelections query fuel ss.selections
            | none => false)
       | .fragmentSpread name _ =>
           (match findFragment query name with
            | some ss => deepRestInSelections query fuel ss.selections
            | none => false)
       | .inlineFragment _ ss => deepRestInSelections query fuel ss.selections) ||
      deepRestInSelections query fuel rest

/-- Document-level deep scan stated by the specification for
`hasRestDirective`. -/
def hasRestDirectiveDeep (fuel : Nat) (query : DocumentNode) : Bool :=
  query.definitions.any fun d =>
    match d with
    | .operation _ ss => deepRestInSelections query fuel ss.selections
    | .fragment _ _ => false

/-- Erase everything below the top level of every selection set that
`getRestDirective` could reach: nested selection sets of top-level
fields, inline-fragment bodies, and fragment-definition bodies.
`getRestDirective`'s invariance under this erasure expresses that it
inspects one level of selections only. -/
def stripSel : Selection → Selection
  | .field n ds _ => .field n ds none
  | .fragmentSpread n ds => .fragmentSpread n ds
  | .inlineFragment ds _ => .inlineFragment ds (.mk [])

/-- Erase nested structure from a definition (see `stripSel`). -/
def stripDef : Definition → Definition
  | .operation k ss => .operation k (.mk (ss.selections.map stripSel))
  | .fragment n _ => .fragment n (.mk [])

/-- Erase all nested structure of a document (see `stripSel`). -/
def stripTopLevel (query : DocumentNode) : DocumentNode :=
  ⟨query.definitions.map stripDef⟩

/-! ### Concrete fixtures used by the claims -/

/-- C1's query: `query { user @rest(type: "User", path: "/users/:id")
{ id name } }`. -/
def c1query : DocumentNode :=
  ⟨[.operation "query"
      (.mk [.field "user"
        [⟨"rest", [⟨"type", .strVal "User"⟩, ⟨"path", .strVal "/users/:id"⟩]⟩]
        (some (.mk [.field "id" [] none, .field "name" [] none]))])]⟩

/-- C1's operation: variables `{id: "1"}`. -/
def c1op : OperationM :=
  ⟨"query", c1query, [("id", Json.str "1")], .ok []⟩

/-- C1's configuration: default endpoint `https://api.test`. -/
def c1options : RestExchangeOptions :=
  ⟨some [("", "https://api.test")], none, none⟩

/-- C1's transport: HTTP 200 with JSON body `{id: 1, name: "Alice"}`. -/
def c1fetch : FetchFn := fun _ _ _ _ =>
  .ok ⟨true, 200, "", .ok (.obj [("id", .num 1), ("name", .str "Alice")])⟩

/-- C2's query: the only `rest` directive sits on the nested field
`friends`, not on any top-level selection. -/
def c2query : DocumentNode :=
  ⟨[.operation "query"
      (.mk [.field "user" []
        (some (.mk [.field "friends"
          [⟨"rest", [⟨"type", .strVal "Friend"⟩,
            ⟨"path", .strVal "/friends"⟩]⟩] none]))])]⟩

/-- C3's query: a mutation selecting the custom serializer `boom`. -/
def c3query : DocumentNode :=
  ⟨[.operation "mutation"
      (.mk [.field "createUser"
        [⟨"rest", [⟨"type", .strVal "User"⟩, ⟨"path", .strVal "/users"⟩,
          ⟨"method", .strVal "POST"⟩,
          ⟨"bodySerializer", .strVal "boom"⟩]⟩]
        (some (.mk [.field "id" [] none]))])]⟩

/-- C3's operation, with a body present under `input`. -/
def c3op : OperationM :=
  ⟨"mutation", c3query, [("input", Json.obj [("name", Json.str "A")])], .ok []⟩

/-- C3's configuration: the serializer `boom` throws a non-`Error`
value. -/
def c3options : RestExchangeOptions :=
  ⟨some [("", "https://api.test")], none,
    some [("boom", fun _ _ => .error .nonError)]⟩

/-- C3's transport (never reached). -/
def c3fetch : FetchFn := fun _ _ _ _ => .ok ⟨true, 200, "", .ok .null⟩

/-- C4's query: a query operation whose directive requests method
`POST`. -/
def c4query : DocumentNode :=
  ⟨[.operation "query"
      (.mk [.field "user"
        [⟨"rest", [⟨"type", .strVal "User"⟩, ⟨"path", .strVal "/users"⟩,
          ⟨"method", .strVal "POST"⟩]⟩]
        (some (.mk [.field "id" [] none]))])]⟩

/-- C4's operation: no body under `input`, so both the body step and the
method-vs-kind validation would fail. -/
def c4op : OperationM := ⟨"query", c4query, [], .ok []⟩

/-- C4's configuration. -/
def c4options : RestExchangeOptions :=
  ⟨some [("", "https://api.test")], none, none⟩

/-- C4's transport (never reached). -/
def c4fetch : FetchFn := fun _ _ _ _ => .ok ⟨true, 200, "", .ok .null⟩

/-- C5's query from the claim:
`{ user @rest(type: "User", path: "/users/:id", endpoint: "userAPI")
{ friends @rest(type: "Friend", path: "/friends/:id") } }`. -/
def c5query : DocumentNode :=
  ⟨[.operation "query"
      (.mk [.field "user"
        [⟨"rest", [⟨"type", .strVal "User"⟩, ⟨"path", .strVal "/users/:id"⟩,
          ⟨"endpoint", .strVal "userAPI"⟩]⟩]
        (some (.mk [.field "id" [] none, .field "name" [] none,
          .field "friends"
            [⟨"rest", [⟨"type", .strVal "Friend"⟩,
              ⟨"path", .strVal "/friends/:id"⟩]⟩] none]))])]⟩

/-- A document with two top-level `rest`-bearing fields. -/
def c5queryTwoTop : DocumentNode :=
  ⟨[.operation "query"
      (.mk [.field "a" [⟨"rest", [⟨"path", .strVal "/a"⟩]⟩] none,
        .field "b" [⟨"rest", [⟨"path", .strVal "/b"⟩]⟩] none])]⟩

/-- C8's query: `query { user { id name } }` (selects `id` and `name`
only). -/
def c8query : DocumentNode :=
  ⟨[.operation "query"
      (.mk [.field "user" []
        (some (.mk [.field "id" [] none, .field "name" [] none]))])]⟩

/-- C10's query: a mutation with method `PUT`. -/
def c10query : DocumentNode :=
  ⟨[.operation "mutation"
      (.mk [.field "updateUser"
        [⟨"rest", [⟨"type", .strVal "User"⟩, ⟨"path", .strVal "/users"⟩,
          ⟨"method", .strVal "PUT"⟩]⟩]
        (some (.mk [.field "id" [] none]))])]⟩

/-- C10's operation: the body key `input` is present but holds the falsy
value `0`. -/
def c10op : OperationM :=
  ⟨"mutation", c10query, [("input", Json.num 0)], .ok []⟩

/-- C10's configuration. -/
def c10options : RestExchangeOptions :=
  ⟨some [("", "https://api.test")], none, none⟩

/-- C10's transport (never reached). -/
def c10fetch : FetchFn := fun _ _ _ _ => .ok ⟨true, 200, "", .ok .null⟩

/-! ### Helper lemmas -/

/-- Bind on a successful `Except` computation. -/
theorem ok_bind {α β : Type} (a : α) (f : α → Except Throwable β) :
    (Except.ok a >>= f) = f a := rfl

/-- Bind short-circuits on a thrown `Except` computation. -/
theorem error_bind {α β : Type} (e : Throwable)
    (f : α → Except Throwable β) :
    ((Except.error e : Except Throwable α) >>= f) = Except.error e := rfl

/-! ### Claim theorems -/

/-- C1 counterexample: on the claim's exact scenario — query
`{ user @rest(type: "User", path: "/users/:id") { id name } }`, variables
`{id: "1"}`, default endpoint, HTTP 200 `{id: 1, name: "Alice"}` — the
result is NOT `{data: {user: {id: 1, name: "Alice", __typename: "User"}}}`:
`omitExtraFields` prunes the stamped `__typename` because the query does
not select it. -/
theorem c1_counterexample :
    ¬ (executeRestRequest 100 c1op c1options c1fetch =
      RestResult.success (.obj [("user", .obj [("id", .num 1),
        ("name", .str "Alice"), ("__typename", .str "User")])])) := by
  intro h
  have he : executeRestRequest 100 c1op c1options c1fetch =
      RestResult.success (.obj [("user", .obj [("id", .num 1),
        ("name", .str "Alice")])]) := rfl
  rw [he] at h
  simp at h

/-- C1 amended: on the claim's scenario, `executeRestRequest` returns the
success result `{data: {user: {id: 1, name: "Alice"}}}` — `addTypename`
stamps `__typename: "User"` on the response, but `omitExtraFields` then
drops it because the selection set contains only `id` and `name`. -/
theorem c1_amended :
    executeRestRequest 100 c1op c1options c1fetch =
      RestResult.success (.obj [("user", .obj [("id", .num 1),
        ("name", .str "Alice")])]) := rfl

/-- C2 counterexample: a document whose only `rest` directive sits on the
nested field `friends` satisfies the claim's deep-scan condition (the
spec-worded `hasRestDirectiveDeep` returns true) yet `hasRestDirective`
returns false — the source inspects top-level selections only. -/
theorem c2_counterexample :
    hasRestDirectiveDeep 10 c2query = true ∧
      hasRestDirective c2query = false :=
  ⟨rfl, rfl⟩

/-- C2 amended: `hasRestDirective(query)` returns true if and only if
some TOP-LEVEL selection of some operation definition carries a directive
named `rest`; nested selection sets are not visited and fragment spreads
are not resolved (a directive sitting directly on a top-level spread or
inline fragment does count, since the source reads `sel.directives` of
every selection kind). -/
theorem c2_amended (query : DocumentNode) :
    hasRestDirective query = true ↔
      ∃ k ss, Definition.operation k ss ∈ query.definitions ∧
        ∃ sel ∈ ss.selections, ∃ dir ∈ sel.directives, dir.name = "rest" := by
  unfold hasRestDirective
  rw [List.any_eq_true]
  constructor
  · rintro ⟨d, hd, hp⟩
    cases d with
    | operation k ss =>
        simp only [List.any_eq_true] at hp
        obtain ⟨sel, hsel, dir, hdir, hname⟩ := hp
        exact ⟨k, ss, hd, sel, hsel, dir, hdir, by simpa using hname⟩
    | fragment n ss => simp at hp
  · rintro ⟨k, ss, hd, sel, hsel, dir, hdir, hname⟩
    refine ⟨.operation k ss, hd, ?_⟩
    simp only [List.any_eq_true]
    exact ⟨sel, hsel, dir, hdir, by simp [hname]⟩

/-- Directive list of a stripped selection. -/
theorem stripSel_directives (sel : Selection) :
    (stripSel sel).directives = sel.directives := by
  cases sel <;> rfl

/-- `firstRestInSelections` ignores everything `stripSel` erases. -/
theorem firstRest_strip (sels : List Selection) :
    firstRestInSelections (sels.map stripSel) = firstRestInSelections sels := by
  induction sels with
  | nil => rfl
  | cons sel rest ih =>
      simp only [List.map_cons, firstRestInSelections, stripSel_directives, ih]

/-- C5: `getRestDirective` walks operations and their top-level
selections in order, inspecting one level only: it is invariant under
erasing all nested selection sets (`stripTopLevel`), and on the claim's
example it returns the argument map of the first (top-level) `rest`
directive, ignoring the nested `friends @rest`; on a document with two
top-level `rest` fields it returns the first. -/
theorem c5_getRestDirective :
    (∀ query : DocumentNode,
      getRestDirective (stripTopLevel query) = getRestDirective query) ∧
    getRestDirective c5query = some [("type", some "User"),
      ("path", some "/users/:id"), ("endpoint", some "userAPI")] ∧
    getRestDirective c5queryTwoTop = some [("path", some "/a")] := by
  refine ⟨?_, rfl, rfl⟩
  intro query
  show getRestDirective.go (query.definitions.map stripDef) =
    getRestDirective.go query.definitions
  induction query.definitions with
  | nil => rfl
  | cons d rest ih =>
      cases d with
      | operation k ss =>
          cases ss with
          | mk sels =>
              simp only [List.map_cons, stripDef, getRestDirective.go,
                SelectionSet.selections, firstRest_strip, ih]
      | fragment n ss =>
          simp only [List.map_cons, stripDef, getRestDirective.go, ih]

/-- C6: `pathBuilder` substitutes via one `replaceParam` per key of the
variables mapping in iteration order (`pathSubst` is exactly that fold),
fails with the missing-parameter error exactly when the substituted
string still contains `:`, returns the substituted string otherwise, and
on the claim's example `pathBuilder("/users/:userId/posts/:postId",
{userId: "123"})` it throws. -/
theorem c6_pathBuilder :
    (∀ (p : String) (vars : List (String × Json)),
      pathSubst p vars = vars.foldl
        (fun acc kv => replaceParam acc (some kv.1)
          (some (jsCoerceString kv.2))) p) ∧
    (∀ (p : String) (vars : List (String × Json)),
      pathBuilder p vars = Except.error (jsError missingParamsMsg) ↔
        strContainsChar (pathSubst p vars) ':' = true) ∧
    (∀ (p : String) (vars : List (String × Json)),
      strContainsChar (pathSubst p vars) ':' = false →
        pathBuilder p vars = Except.ok (pathSubst p vars)) ∧
    pathBuilder "/users/:userId/posts/:postId" [("userId", Json.str "123")] =
      Except.error (jsError missingParamsMsg) := by
  refine ⟨fun p vars => rfl, ?_, ?_, rfl⟩
  · intro p vars
    unfold pathBuilder
    cases h : strContainsChar (pathSubst p vars) ':' <;> simp [h]
  · intro p vars h
    unfold pathBuilder
    simp [h]

/-- C6 witness: a fully substituted path is returned without error. -/
theorem c6_pathBuilder_witness :
    strContainsChar (pathSubst "/users/:id" [("id", Json.str "7")]) ':'
        = false ∧
    pathBuilder "/users/:id" [("id", Json.str "7")] = Except.ok "/users/7" :=
  ⟨rfl, c6_pathBuilder.2.2.1 "/users/:id" [("id", Json.str "7")] rfl⟩

/-- C7 counterexample: `validateRequestMethodForOperationType("get",
"query")` succeeds although `"get"` is not the string `"GET"` — the
source compares the uppercased method, so the claim's "succeeds exactly
when the method is GET" fails as stated. -/
theorem c7_counterexample :
    validateRequestMethodForOperationType "get" "query" = Except.ok none ∧
      "get" ≠ "GET" :=
  ⟨rfl, by decide⟩

/-- C7 amended: the contract holds with the method compared
case-insensitively (uppercased first): for `query` it succeeds exactly
when the uppercased method is `GET` and otherwise fails naming the
offending method; for `mutation` it succeeds exactly when the uppercased
method is one of POST/PUT/PATCH/DELETE; for `subscription` it always
fails; for any other kind it is a no-op returning the kind. -/
theorem c7_amended (method kind : String) :
    (kind = "query" →
      validateRequestMethodForOperationType method kind =
        (if strToUpper method = "GET" then Except.ok none
         else Except.error (jsError
           ("A \"query\" operation can only support \"GET\" requests " ++
             "but got \"" ++ method ++ "\".")))) ∧
    (kind = "mutation" →
      validateRequestMethodForOperationType method kind =
        (if ["POST", "PUT", "PATCH", "DELETE"].contains (strToUpper method)
         then Except.ok none
         else Except.error (jsError
           "\"mutation\" operations do not support that HTTP-verb"))) ∧
    (kind = "subscription" →
      validateRequestMethodForOperationType method kind =
        Except.error (jsError
          "A \"subscription\" operation is not supported yet.")) ∧
    (kind ≠ "query" → kind ≠ "mutation" → kind ≠ "subscription" →
      validateRequestMethodForOperationType method kind =
        Except.ok (some kind)) := by
  refine ⟨?_, ?_, ?_, ?_⟩
  · intro h
    subst h
    unfold validateRequestMethodForOperationType
    by_cases hm : strToUpper method = "GET" <;> simp [hm]
  · intro h
    subst h
    unfold validateRequestMethodForOperationType
    simp
  · intro h
    subst h
    unfold validateRequestMethodForOperationType
    simp
  · intro h1 h2 h3
    unfold validateRequestMethodForOperationType
    simp [h1, h2, h3]

/-- C7 witness: a `query` with method `POST` fails naming the method. -/
theorem c7_amended_witness :
    validateRequestMethodForOperationType "POST" "query" =
      Except.error (jsError ("A \"query\" operation can only support " ++
        "\"GET\" requests but got \"POST\".")) := by
  have h := (c7_amended "POST" "query").1 rfl
  rw [h]
  rfl

/-- C8: `omitExtraFields` filters the data against
`getRequestedFields(query)`; at each object level keys absent from the
field map are dropped and present keys recurse into their nested map;
arrays map elementwise under the same map; non-object leaves pass through
unchanged; and on the claim's example the extraneous `age` is dropped
while `id` and `name` survive. -/
theorem c8_omitExtraFields :
    (∀ (fuel : Nat) (data : Json) (query : DocumentNode),
      omitExtraFields fuel data query =
        filterData fuel data (getRequestedFields fuel query)) ∧
    (∀ (fuel : Nat) (kvs : List (String × Json)) (fm : FieldMap),
      filterData (fuel + 1) (.obj kvs) fm =
        .obj (kvs.filterMap fun kv =>
          match List.lookup kv.1 fm.entries with
          | some sub => some (kv.1, filterData fuel kv.2 sub)
          | none => none)) ∧
    (∀ (fuel : Nat) (xs : List Json) (fm : FieldMap),
      filterData (fuel + 1) (.arr xs) fm =
        .arr (xs.map fun x => filterData fuel x fm)) ∧
    (∀ (fuel : Nat) (fm : FieldMap) (n : Int),
      filterData fuel (.num n) fm = .num n) ∧
    (∀ (fuel : Nat) (fm : FieldMap) (s : String),
      filterData fuel (.str s) fm = .str s) ∧
    omitExtraFields 100 (.obj [("user", .obj [("id", .num 1),
      ("name", .str "Alice"), ("age", .num 25)])]) c8query =
      .obj [("user", .obj [("id", .num 1), ("name", .str "Alice")])] := by
  refine ⟨fun _ _ _ => rfl, fun _ _ _ => rfl, fun _ _ _ => rfl,
    ?_, ?_, rfl⟩
  · intro fuel fm n
    cases fuel <;> rfl
  · intro fuel fm s
    cases fuel <;> rfl

/-- `firstRestInSelections` finds something iff some selection's
directive list contains a `rest` directive. -/
theorem firstRest_isSome (sels : List Selection) :
    (firstRestInSelections sels).isSome =
      sels.any fun sel => sel.directives.any fun dir => dir.name == "rest" := by
  induction sels with
  | nil => rfl
  | cons sel rest ih =>
      rw [List.any_cons]
      unfold firstRestInSelections
      cases hf : sel.directives.find? (fun dir => dir.name == "rest") with
      | some d =>
          have hpa := List.find?_some hf
          have hp : (sel.directives.any fun dir => dir.name == "rest") = true := by
            rw [List.any_eq_true]
            exact ⟨d, List.mem_of_find?_eq_some hf, hpa⟩
          rw [hp]
          rfl
      | none =>
          have hp : (sel.directives.any fun dir => dir.name == "rest") = false := by
            rw [List.any_eq_false]
            intro x hx
            have := List.find?_eq_none.mp hf x hx
            simpa using this
          rw [hp, ih, Bool.false_or]

/-- The walk of `getRestDirective` succeeds iff the scan of
`hasRestDirective` does, definition list by definition list. -/
theorem getRestGo_isSome (defs : List Definition) :
    (getRestDirective.go defs).isSome =
      defs.any fun d =>
        match d with
        | .operation _ ss =>
            ss.selections.any fun sel =>
              sel.directives.any fun dir => dir.name == "rest"
        | .fragment _ _ => false := by
  induction defs with
  | nil => rfl
  | cons d rest ih =>
      cases d with
      | operation k ss =>
          rw [List.any_cons]
          unfold getRestDirective.go
          cases hf : firstRestInSelections ss.selections with
          | some dd =>
              have h1 : (firstRestInSelections ss.selections).isSome = true := by
                rw [hf]; rfl
              rw [firstRest_isSome] at h1
              simp only [h1, Bool.true_or]
              rfl
          | none =>
              have h1 : (firstRestInSelections ss.selections).isSome = false := by
                rw [hf]; rfl
              rw [firstRest_isSome] at h1
              simp only [h1, Bool.false_or]
              exact ih
      | fragment n ss =>
          rw [List.any_cons]
          unfold getRestDirective.go
          simp only [Bool.false_or]
          exact ih

/-- C9: `hasRestDirective` and `getRestDirective` agree — both scan
exactly the top-level selections of operation definitions for a `rest`
directive, so `hasRestDirective query` is true iff
`getRestDirective query` is non-null, making the orchestrator's
"No @rest directive found" branch unreachable for operations the
exchange's filter admits. -/
theorem c9_hasRest_iff_getRest (query : DocumentNode) :
    hasRestDirective query = (getRestDirective query).isSome := by
  unfold hasRestDirective getRestDirective
  rw [getRestGo_isSome]

/-- C3: `executeRestRequest` never lets a thrown value escape: its result
is exactly the `try` pipeline's value on success, the `{data: null,
error: {message, name, stack}}` envelope when the pipeline throws an
`Error`, and the normalized `{message: "Unexpected error", name:
"Unexpected"}` envelope when it throws a non-`Error` value — witnessed
concretely by a mutation whose custom serializer throws a non-`Error`. -/
theorem c3_catch_boundary (fuel : Nat) (op : OperationM)
    (options : RestExchangeOptions) (fetch : FetchFn) :
    (executeRestRequest fuel op options fetch =
      match executeRestRequestE fuel op options fetch with
      | .ok d => RestResult.success d
      | .error (.error n m s) => RestResult.failure ⟨m, n, s⟩
      | .error .nonError =>
          RestResult.failure ⟨"Unexpected error", "Unexpected", none⟩) ∧
    executeRestRequest 10 c3op c3options c3fetch =
      RestResult.failure ⟨"Unexpected error", "Unexpected", none⟩ := by
  constructor
  · unfold executeRestRequest
    cases executeRestRequestE fuel op options fetch with
    | ok d => rfl
    | error e => cases e <;> rfl
  · rfl

/-- A failing body step short-circuits the whole pipeline: under
hypotheses that every stage before the body step succeeds, a `buildBody`
error is the pipeline's error — in particular the
method-versus-operation-kind validation (which runs after the body step)
never gets to report its own error. -/
theorem executeRestRequestE_body_error
    (fuel : Nat) (op : OperationM) (options : RestExchangeOptions)
    (fetch : FetchFn) (eps : List (String × String)) (args : RestArgs)
    (u p : String) (hdrs : List (String × String)) (e : Throwable)
    (h1 : resolveEndpointsConfig options = .ok eps)
    (h2 : getRestDirective op.query = some args)
    (h3 : getURIFromEndpoints eps (restArgLookup args "endpoint") = some u)
    (h4 : ¬ u = "")
    (h5 : op.fetchHeaders = .ok hdrs)
    (h6 : restArgLookup args "path" = some p)
    (h7 : strContainsChar (pathSubst p op.vars) ':' = false)
    (hB : buildBody (buildSerializers options) args
        (jsOrDefault (restArgLookup args "method") "GET") op.vars hdrs =
        .error e) :
    executeRestRequestE fuel op options fetch = .error e := by
  simp only [executeRestRequestE, pathBuilder, h1, h2, h3, h5, h6, h7,
    ok_bind, error_bind, if_neg h4, Bool.false_eq_true, if_false, hB]

/-- The missing-body error of the body step: for a method outside
`GET`/`DELETE`, a falsy (or absent) body value under the body key throws
the missing-input-body error. -/
theorem buildBody_falsy (serializers : List (String × SerializerM))
    (args : RestArgs) (method : String) (vars : List (String × Json))
    (headers : List (String × String))
    (hm : (["GET", "DELETE"].contains method) = false)
    (hb : jsTruthyOpt (lookupVar vars
        (jsOrDefault (restArgLookup args "bodyKey") "input")) = false) :
    buildBody serializers args method vars headers =
      .error (jsError missingBodyMsg) := by
  have hne : ¬ method = "GET" ∧ ¬ method = "DELETE" := by
    constructor <;> intro h <;> subst h <;> exact absurd hm (by decide)
  unfold buildBody
  cases hlv : lookupVar vars (jsOrDefault (restArgLookup args "bodyKey") "input") with
  | none => simp [hm, hlv, hne.1, hne.2]
  | some v =>
      rw [hlv] at hb
      simp only [jsTruthyOpt] at hb
      simp [hm, hlv, hb, hne.1, hne.2]

/-- C4: the body step runs before the method-vs-operation-kind check.
Whenever every stage before the body step succeeds and the body step
fails with error `e` (missing body or serialization failure; the method
is then necessarily neither `GET` nor `DELETE`), the Result carries `e` —
regardless of the operation kind, so even when the method validation
would also fail the caller sees the body error, never the
method-mismatch error. -/
theorem c4_body_error_before_method_validation
    (fuel : Nat) (op : OperationM) (options : RestExchangeOptions)
    (fetch : FetchFn) (eps : List (String × String)) (args : RestArgs)
    (u p : String) (hdrs : List (String × String)) (e : Throwable)
    (h1 : resolveEndpointsConfig options = .ok eps)
    (h2 : getRestDirective op.query = some args)
    (h3 : getURIFromEndpoints eps (restArgLookup args "endpoint") = some u)
    (h4 : ¬ u = "")
    (h5 : op.fetchHeaders = .ok hdrs)
    (h6 : restArgLookup args "path" = some p)
    (h7 : strContainsChar (pathSubst p op.vars) ':' = false)
    (hB : buildBody (buildSerializers options) args
        (jsOrDefault (restArgLookup args "method") "GET") op.vars hdrs =
        .error e) :
    executeRestRequest fuel op options fetch = catchToResult e := by
  unfold executeRestRequest
  rw [executeRestRequestE_body_error fuel op options fetch eps args u p hdrs
    e h1 h2 h3 h4 h5 h6 h7 hB]

/-- C4 witness: a query operation with directive method `POST` and no
body in the variables gets the missing-body error, not the
query-requires-GET error. -/
theorem c4_witness :
    executeRestRequest 50 c4op c4options c4fetch =
      RestResult.failure ⟨missingBodyMsg, "Error", none⟩ :=
  c4_body_error_before_method_validation 50 c4op c4options c4fetch
    [("", "https://api.test")]
    [("type", some "User"), ("path", some "/users"), ("method", some "POST")]
    "https://api.test" "/users" [] (jsError missingBodyMsg)
    rfl rfl rfl (by decide) rfl rfl rfl rfl

/-- C10: a body value that is present under the body key but falsy (0,
empty string, false, null) is treated as absent: for a method outside
`GET`/`DELETE` the orchestrator returns the missing-input-body error
Result even though the variables mapping contains the key. -/
theorem c10_falsy_body_treated_as_missing
    (fuel : Nat) (op : OperationM) (options : RestExchangeOptions)
    (fetch : FetchFn) (eps : List (String × String)) (args : RestArgs)
    (u p : String) (hdrs : List (String × String)) (v : Json)
    (h1 : resolveEndpointsConfig options = .ok eps)
    (h2 : getRestDirective op.query = some args)
    (h3 : getURIFromEndpoints eps (restArgLookup args "endpoint") = some u)
    (h4 : ¬ u = "")
    (h5 : op.fetchHeaders = .ok hdrs)
    (h6 : restArgLookup args "path" = some p)
    (h7 : strContainsChar (pathSubst p op.vars) ':' = false)
    (h8 : (["GET", "DELETE"].contains
        (jsOrDefault (restArgLookup args "method") "GET")) = false)
    (h9 : lookupVar op.vars
        (jsOrDefault (restArgLookup args "bodyKey") "input") = some v)
    (h10 : jsTruthy v = false) :
    executeRestRequest fuel op options fetch =
      RestResult.failure ⟨missingBodyMsg, "Error", none⟩ := by
  have hb : jsTruthyOpt (lookupVar op.vars
      (jsOrDefault (restArgLookup args "bodyKey") "input")) = false := by
    rw [h9]
    simpa [jsTruthyOpt] using h10
  have hB := buildBody_falsy (buildSerializers options) args
    (jsOrDefault (restArgLookup args "method") "GET") op.vars hdrs h8 hb
  unfold executeRestRequest
  rw [executeRestRequestE_body_error fuel op options fetch eps args u p hdrs
    (jsError missingBodyMsg) h1 h2 h3 h4 h5 h6 h7 hB]
  rfl

/-- C10 witness: a mutation with method `PUT` and `variables = {input: 0}`
(key present, value falsy) yields the missing-body error Result. -/
theorem c10_witness :
    lookupVar c10op.vars "input" = some (Json.num 0) ∧
    jsTruthy (Json.num 0) = false ∧
    executeRestRequest 50 c10op c10options c10fetch =
      RestResult.failure ⟨missingBodyMsg, "Error", none⟩ :=
  ⟨rfl, rfl,
    c10_falsy_body_treated_as_missing 50 c10op c10options c10fetch
      [("", "https://api.test")]
      [("type", some "User"), ("path", some "/users"), ("method", some "PUT")]
      "https://api.test" "/users" [] (Json.num 0)
      rfl rfl rfl (by decide) rfl rfl rfl rfl rfl rfl⟩

end RestExchange
